import Mathlib

/-!
Verification model of the dispo-master core (src-tauri/src): the job-row
pipeline of `job_row.rs`, `file_parsing.rs` and `parse_error.rs`.

Modelling conventions:
* `chrono::NaiveDateTime` is modelled as an `Int` count of nanoseconds since
  the epoch 1970-01-01T00:00:00 (`NaiveDateTime::default()` is `0`).
  `chrono::Duration` arithmetic is exact on nanoseconds; `Duration / 2` is
  floor division of the nanosecond count (component-wise truncating division
  in chrono equals floor division on the total), and `num_minutes` truncates
  toward zero.
* Rust `f32` values are modelled exactly as dyadic numbers `m * 2 ^ s`
  (constructor `F32.finite m s`), produced by correct round-to-nearest-even
  (`roundF32`); `i64 as f32`, `f64 as f32` and `str::parse::<f32>` all round
  this way.  Conversions `f32 as i32` truncate toward zero and saturate.
* polars `AnyValue` is modelled with the five constructors this pipeline can
  actually produce (`data_type_to_any_value` emits only Utf8Owned, Float64,
  Int64, Boolean and Null); `Utf8` and `Utf8Owned` behave identically in
  every consumer and are merged into one constructor.  The `f64` payload is
  kept as a dyadic pair `(m, e)` meaning `m * 2 ^ e`, which is exact for
  every `f64`.  Display rendering of numeric payloads only feeds opaque
  error-message strings and stringified cells, which no claim inspects; it
  is rendered from the dyadic pair.
* Rust `char::is_whitespace` / `str::trim` are modelled with ASCII
  whitespace (`Char.isWhitespace`); all strings the claims touch are ASCII.
-/

namespace Dispo

set_option maxRecDepth 16000

deriving instance DecidableEq for Except

/-! ## Tolerance / date engine (`job_row.rs` lines 558-652) -/

def nsPerMinute : Int := 60000000000

/-- `middle_between_dates` (job_row.rs:568): order the two dates, halve the
duration (chrono `Duration / 2`, floor on nanoseconds) and add it to the
earlier date. -/
def middle_between_dates (date1 date2 : Int) : Int :=
  let p := if date1 < date2 then (date1, date2) else (date2, date1)
  let duration := p.2 - p.1
  let half_duration := Int.fdiv duration 2
  p.1 + half_duration

/-- `difference_in_minutes` (job_row.rs:592): signed duration from `date2` to
`date1`, in whole minutes truncated toward zero (`Duration::num_minutes`). -/
def difference_in_minutes (date1 date2 : Int) : Int :=
  Int.tdiv (date1 - date2) nsPerMinute

/-- `calculate_tolerance_middle_date` (job_row.rs:616). -/
def calculate_tolerance_middle_date (edge_date middle_date : Int) : Int :=
  if |difference_in_minutes edge_date middle_date| ≤ 0 then 0
  else if |difference_in_minutes edge_date middle_date| ≤ 15 then 15
  else if |difference_in_minutes edge_date middle_date| ≤ 30 then 30
  else if |difference_in_minutes edge_date middle_date| ≤ 60 then 60
  else 120

/-- `calculate_tolerance` (job_row.rs:649). -/
def calculate_tolerance (early_date late_date : Int) : Int :=
  calculate_tolerance_middle_date early_date (middle_between_dates early_date late_date)

/-- The tolerance bucket table as the spec states it (spec §4.5): `d = 0` maps
to `0`, `1-15` to `15`, `16-30` to `30`, `31-60` to `60`, `> 60` to `120`. -/
def toleranceBucketSpec (d : Int) : Int :=
  if d = 0 then 0
  else if 1 ≤ d ∧ d ≤ 15 then 15
  else if 16 ≤ d ∧ d ≤ 30 then 30
  else if 31 ≤ d ∧ d ≤ 60 then 60
  else 120

/-! ## Temperature ranges (`job_row.rs` lines 59-127, 397-407) -/

inductive TemperatureRange where
  | DryIce
  | DryShipper
  | Refrigerated
  | ControlledAmbient
  | Frozen
  | Ambient
  | NonSOP
  | Invalid
deriving DecidableEq, Repr

/-- `TemperatureRange::from_str` (job_row.rs:99); the Rust error payload is
never observed by any caller, so the failure is modelled as `none`. -/
def TemperatureRange.from_str (value : String) : Option TemperatureRange :=
  if value = "Frozen Dry Ice -80C to -20C" then some .DryIce
  else if value = "Deep Frozen Dry Ice -70C [+/-10C]" then some .DryIce
  else if value = "Cryogenics -190C to -150C" then some .DryShipper
  else if value = "Refrigerated +2C to +8C" then some .Refrigerated
  else if value = "Controlled Ambient +15C to +25C" then some .ControlledAmbient
  else if value = "Frozen -25C to -15C" then some .Frozen
  else if value = "Ambient" then some .Ambient
  else if value = "Frozen -50C  [+/-10C]" then some .NonSOP
  else none

/-- Rust `str::split(",")` on the character list: splits at every comma,
keeping empty segments (so a trailing comma yields a trailing `[]`). -/
def splitComma : List Char → List (List Char)
  | [] => [[]]
  | c :: rest =>
    if c = ',' then [] :: splitComma rest
    else
      match splitComma rest with
      | s :: ss => (c :: s) :: ss
      | [] => [[c]]

/-- Rust `str::trim` on a character list (ASCII whitespace). -/
def trimChars (l : List Char) : List Char :=
  ((l.dropWhile Char.isWhitespace).reverse.dropWhile Char.isWhitespace).reverse

/-- `extract_temperature_ranges` (job_row.rs:397): empty input maps to
`[Ambient]`; otherwise split on `,`, trim each segment and match it exactly,
falling back to `Invalid`. -/
def extract_temperature_ranges (input : String) : List TemperatureRange :=
  if input = "" then [TemperatureRange.Ambient]
  else
    (splitComma input.data).map fun s =>
      (TemperatureRange.from_str (String.mk (trimChars s))).getD TemperatureRange.Invalid

/-! ## Text decoding (`file_parsing.rs` lines 166-182) -/

/-- The UTF-16 code units of one character (`str::encode_utf16` per char). -/
def utf16Units (c : Char) : List Nat :=
  if c.toNat < 65536 then [c.toNat]
  else [55296 + (c.toNat - 65536) / 1024, 56320 + (c.toNat - 65536) % 1024]

/-- `decode_text` (file_parsing.rs:167):
`input.encode_utf16().filter(|&c| c != 0).map(|c| c as u8 as char).collect()`.
Each 16-bit unit is truncated to its low byte (`as u8`) after the null
filter. -/
def decode_text (input : String) : String :=
  String.mk ((((input.data.flatMap utf16Units).filter (fun u => u ≠ 0)).map
    (fun u => Char.ofNat (u % 256))))

/-- The behavior the spec describes for `decode_text`: drop the null code
units and keep every remaining character unchanged, i.e. filter the null
character out of the string. -/
def decode_text_spec (input : String) : String :=
  String.mk (input.data.filter fun c => c ≠ Char.ofNat 0)

/-- `decode_text_smart_string` (file_parsing.rs:180): same result, different
string container. -/
def decode_text_smart_string (input : String) : String :=
  decode_text input

/-! ## Exact f32 model -/

/-- Floor of log2 on naturals, by structural (fuel) recursion so the kernel
can evaluate it: `natLog2Aux fuel n` halves `n` until it drops below 2. -/
def natLog2Aux : Nat → Nat → Nat
  | 0, _ => 0
  | fuel + 1, n => if 2 ≤ n then natLog2Aux fuel (n / 2) + 1 else 0

def natLog2 (n : Nat) : Nat := natLog2Aux n n

/-- Floor of `log2 (a / b)` for positive naturals `a`, `b`, computed from the
integer logs of numerator and denominator. -/
def floorLog2Frac (a b : Nat) : Int :=
  if (if 0 ≤ ((natLog2 a : Int) - (natLog2 b : Int))
      then 2 ^ ((natLog2 a : Int) - (natLog2 b : Int)).toNat * b ≤ a
      else b ≤ 2 ^ (-((natLog2 a : Int) - (natLog2 b : Int))).toNat * a)
  then (natLog2 a : Int) - (natLog2 b : Int)
  else (natLog2 a : Int) - (natLog2 b : Int) - 1

/-- Round `num / den` (`den > 0`) to the nearest integer, ties to even. -/
def roundHalfEvenInt (num den : Int) : Int :=
  if 2 * (num - Int.fdiv num den * den) < den then Int.fdiv num den
  else if den < 2 * (num - Int.fdiv num den * den) then Int.fdiv num den + 1
  else if Int.fdiv num den % 2 = 0 then Int.fdiv num den
  else Int.fdiv num den + 1

/-- An IEEE-754 binary32 value: `finite m s` denotes `m * 2 ^ s` (the
representation produced by `roundF32` is not normalised, but it is computed
deterministically). -/
inductive F32 where
  | finite (m : Int) (s : Int)
  | inf
  | neginf
  | nan
deriving DecidableEq, Repr

/-- Whether `m * 2 ^ s ≥ 2 ^ 128` for `m ≥ 0` (the f32 overflow threshold). -/
def dyadicGe2Pow128 (m s : Int) : Bool :=
  if 128 ≤ s then 1 ≤ m else decide (2 ^ (128 - s).toNat ≤ m)

/-- The power-of-two scale of the f32 grid at binade `e`: normal numbers use
`e - 23`, subnormals bottom out at `-126 - 23 = -149`. -/
def f32Scale (e : Int) : Int := max e (-126) - 23

/-- The rounded significand of `a / denom` (`a, denom > 0`) on the grid
`2 ^ s`, i.e. `a / denom / 2 ^ s` rounded half-to-even, computed with
integer arithmetic only. -/
def f32Sig (a denom s : Int) : Int :=
  if 0 ≤ s then roundHalfEvenInt a (denom * 2 ^ s.toNat)
  else roundHalfEvenInt (a * 2 ^ (-s).toNat) denom

/-- Round the exact rational `numer / denom` (`denom > 0`) to the nearest f32,
ties to even, overflowing to the infinities: the IEEE-754 binary32 rounding
all the Rust conversions in this pipeline use (`as f32`, `str::parse`). -/
def roundF32 (numer denom : Int) : F32 :=
  if numer = 0 then .finite 0 0
  else if dyadicGe2Pow128 (f32Sig |numer| denom (f32Scale (floorLog2Frac numer.natAbs denom.toNat)))
      (f32Scale (floorLog2Frac numer.natAbs denom.toNat)) then
    (if 0 < numer then .inf else .neginf)
  else
    .finite
      (if 0 < numer then f32Sig |numer| denom (f32Scale (floorLog2Frac numer.natAbs denom.toNat))
       else -(f32Sig |numer| denom (f32Scale (floorLog2Frac numer.natAbs denom.toNat))))
      (f32Scale (floorLog2Frac numer.natAbs denom.toNat))

/-- `i64 as f32` (num-traits `NumCast::from` on an `i64` never fails). -/
def int64ToF32 (i : Int) : F32 := roundF32 i 1

/-- `f64 as f32` for the dyadic `f64` value `m * 2 ^ e`. -/
def float64ToF32 (m e : Int) : F32 :=
  if 0 ≤ e then roundF32 (m * 2 ^ e.toNat) 1 else roundF32 m (2 ^ (-e).toNat)

/-- The exact value `m * 2 ^ s` truncated toward zero to an integer. -/
def f32TruncVal (m s : Int) : Int :=
  if 0 ≤ s then m * 2 ^ s.toNat else Int.tdiv m (2 ^ (-s).toNat)

/-- `f32 as i32`: truncate toward zero, saturate at the i32 bounds
(NaN maps to 0). -/
def f32ToI32 : F32 → Int
  | .nan => 0
  | .inf => 2147483647
  | .neginf => -2147483648
  | .finite m s =>
    if f32TruncVal m s < -2147483648 then -2147483648
    else if 2147483647 < f32TruncVal m s then 2147483647
    else f32TruncVal m s

/-! ### `str::parse::<f32>` -/

def digitVal (c : Char) : Nat := c.toNat - 48

def digitsToNat (l : List Char) : Nat :=
  l.foldl (fun a c => a * 10 + digitVal c) 0

def lowerStr (l : List Char) : List Char := l.map Char.toLower

/-- Decimal mantissa of a float literal: `digits [. digits]` with at least one
digit overall; returns the integer formed by all digits and the number of
fractional digits. -/
def parseMantissa (l : List Char) : Option (Nat × Nat) :=
  let ip := l.takeWhile Char.isDigit
  let rest := l.drop ip.length
  match rest with
  | [] => if ip.isEmpty then none else some (digitsToNat ip, 0)
  | c :: rest2 =>
    if c = '.' then
      let fp := rest2.takeWhile Char.isDigit
      if rest2.drop fp.length = [] ∧ ¬(ip.isEmpty ∧ fp.isEmpty) then
        some (digitsToNat (ip ++ fp), fp.length)
      else none
    else none

/-- Optional exponent suffix `(e|E)[+-]?digits`; returns the exponent and the
mantissa portion of the input. -/
def splitExponent (l : List Char) : Option (List Char × Int) :=
  match l.span (fun c => c ≠ 'e' ∧ c ≠ 'E') with
  | (mant, []) => some (mant, 0)
  | (mant, _ :: rest) =>
    match rest with
    | '+' :: ds => if ds ≠ [] ∧ ds.all Char.isDigit then some (mant, (digitsToNat ds : Int)) else none
    | '-' :: ds => if ds ≠ [] ∧ ds.all Char.isDigit then some (mant, -(digitsToNat ds : Int)) else none
    | ds => if ds ≠ [] ∧ ds.all Char.isDigit then some (mant, (digitsToNat ds : Int)) else none

/-- `str::parse::<f32>` (Rust float grammar, correctly rounded): optional
sign, `inf`/`infinity`/`nan` (case-insensitive) or a decimal mantissa with
optional exponent. -/
def parseF32 (s : String) : Option F32 :=
  let (sign, body) :=
    match s.data with
    | '+' :: rest => (1, rest)
    | '-' :: rest => ((-1 : Int), rest)
    | l => (1, l)
  let low := lowerStr body
  if low = ['i', 'n', 'f'] ∨ low = ['i', 'n', 'f', 'i', 'n', 'i', 't', 'y'] then
    some (if sign = 1 then .inf else .neginf)
  else if low = ['n', 'a', 'n'] then some .nan
  else
    match splitExponent body with
    | none => none
    | some (mant, ex) =>
      match parseMantissa mant with
      | none => none
      | some (m, fl) =>
        let e10 : Int := ex - fl
        if m = 0 then some (.finite 0 0)
        else if 0 ≤ e10 then some (roundF32 (sign * m * 10 ^ e10.toNat) 1)
        else some (roundF32 (sign * m) (10 ^ (-e10).toNat))

/-! ## polars data model -/

/-- polars `AnyValue`, restricted to the constructors this pipeline produces
(see the file header).  `float64 m e` denotes the `f64` value `m * 2 ^ e`. -/
inductive AnyValue where
  | utf8 (s : String)
  | int64 (i : Int)
  | float64 (m : Int) (e : Int)
  | boolean (b : Bool)
  | null
deriving DecidableEq, Repr

/-- polars `Display` of an `AnyValue` (text cells are quoted).  The numeric
renderings are a faithful decimal for `int64` and a dyadic rendering for
`float64`; they feed only error-message payloads and stringified non-text
cells, which no claim inspects. -/
def anyValueDisplay : AnyValue → String
  | .utf8 s => "\x22" ++ s ++ "\x22"
  | .int64 i => toString i
  | .float64 m e => toString m ++ "p" ++ toString e
  | .boolean b => if b then "true" else "false"
  | .null => "null"

/-- `AnyValueToNumericParseError` (job_row.rs:440). -/
inductive AnyValueToNumericParseError where
  | InvalidType (value : String)
  | StringParseError (value : String)
  | ParseError (value : String)
deriving DecidableEq, Repr

/-- `AnyValueToNaiveDateTimeParseError` (job_row.rs:510). -/
inductive AnyValueToNaiveDateTimeParseError where
  | InvalidType (value : String)
  | ParseError (value : String)
deriving DecidableEq, Repr

/-- `calamine::Error`, kept as an opaque-to-us message payload: the pipeline
only moves these values around, it never inspects them. -/
structure CalamineError where
  msg : String
deriving DecidableEq, Repr

/-- polars errors this pipeline can hit: a missing column on selection, a
duplicate column name on frame construction. -/
inductive PolarsError where
  | notFound (column : String)
  | duplicate (column : String)
deriving DecidableEq, Repr

/-- `ParseFilesError` (parse_error.rs:21).  The `StringToDispoMode` and
`StringToTemperatureRange` payloads are the offending strings. -/
inductive ParseFilesError where
  | CalamineError (e : CalamineError)
  | PolarsError (e : PolarsError)
  | NoHeadersFound
  | MismatchedRowCount (p : Int × Int)
  | InvalidSheetCount (p : Int × Int)
  | AnyValueToNumericParse (e : AnyValueToNumericParseError)
  | AnyValueToNaiveDateTimeParse (e : AnyValueToNaiveDateTimeParseError)
  | StringToDispoMode (s : String)
  | StringToTemperatureRange (s : String)
deriving DecidableEq, Repr

/-- A polars `DataFrame`: named columns of cells.  polars guarantees equal
column lengths on construction; that invariant is `DataFrame.wellFormed`
below and is assumed where a claim needs it. -/
structure DataFrame where
  cols : List (String × List AnyValue)
deriving DecidableEq, Repr

/-- `DataFrame::height`: length of the first column (0 when empty). -/
def DataFrame.height (df : DataFrame) : Nat :=
  match df.cols with
  | [] => 0
  | c :: _ => c.2.length

/-- `DataFrame::column`: first column with the given name, else a polars
not-found error. -/
def DataFrame.column (df : DataFrame) (name : String) :
    Except PolarsError (List AnyValue) :=
  match df.cols.find? (fun c => c.1 = name) with
  | some c => .ok c.2
  | none => .error (.notFound name)

/-- The polars frame invariant: every column has the frame's height. -/
def DataFrame.wellFormed (df : DataFrame) : Prop :=
  ∀ c ∈ df.cols, c.2.length = df.height

instance (df : DataFrame) : Decidable df.wellFormed := by
  unfold DataFrame.wellFormed; infer_instance

/-! ## Field extractors (`job_row.rs` lines 351-502) -/

/-- `extract_column_as_string` (job_row.rs:351): text cells pass through,
anything else is stringified via `Display`. -/
def extract_column_as_string (df : DataFrame) (column_name : String) :
    Except PolarsError (List String) :=
  (df.column column_name).map (List.map fun cell =>
    match cell with
    | .utf8 s => s
    | _ => anyValueDisplay cell)

/-- `extract_column_as_temperature_ranges` (job_row.rs:372): text cells go
through `extract_temperature_ranges`, non-text cells yield `[Ambient]`. -/
def extract_column_as_temperature_ranges (df : DataFrame) (column_name : String) :
    Except PolarsError (List (List TemperatureRange)) :=
  (df.column column_name).map (List.map fun cell =>
    match cell with
    | .utf8 s => extract_temperature_ranges s
    | _ => [TemperatureRange.Ambient])

/-- `any_value_to_numeric::<f32>` (job_row.rs:471): text cells via
`str::parse::<f32>`, numeric cells via `NumCast` (an `as`-cast for the
kinds present here, which never fails), anything else `InvalidType`. -/
def any_value_to_numeric_f32 (value : AnyValue) :
    Except AnyValueToNumericParseError F32 :=
  match value with
  | .utf8 s =>
    match parseF32 s with
    | some f => .ok f
    | none => .error (.StringParseError (anyValueDisplay value))
  | .int64 i => .ok (int64ToF32 i)
  | .float64 m e => .ok (float64ToF32 m e)
  | _ => .error (.InvalidType (anyValueDisplay value))

/-- Rust `collect::<Result<Vec<_>, _>>()`: left-to-right, first error wins,
no partial result. -/
def collectExcept (f : α → Except ε β) : List α → Except ε (List β)
  | [] => .ok []
  | a :: as =>
    match f a with
    | .error e => .error e
    | .ok b =>
      match collectExcept f as with
      | .error e => .error e
      | .ok bs => .ok (b :: bs)

/-- The per-cell body of `extract_column_as_i32`: coerce to `f32`, then
truncate to `i32`. -/
def cellToI32 (cell : AnyValue) : Except ParseFilesError Int :=
  match any_value_to_numeric_f32 cell with
  | .ok num => .ok (f32ToI32 num)
  | .error e => .error (.AnyValueToNumericParse e)

/-- `extract_column_as_i32` (job_row.rs:420). -/
def extract_column_as_i32 (df : DataFrame) (column_name : String) :
    Except ParseFilesError (List Int) :=
  match df.column column_name with
  | .error e => .error (.PolarsError e)
  | .ok column => collectExcept cellToI32 column

/-! ## Date-time parsing (`job_row.rs` lines 535-556) -/

def skipWs (l : List Char) : List Char := l.dropWhile Char.isWhitespace

/-- Read 1 to `maxCount` decimal digits greedily (chrono `scan::number`). -/
def readDigits (l : List Char) (maxCount : Nat) : Option (Nat × List Char) :=
  let ds := (l.take maxCount).takeWhile Char.isDigit
  if ds.isEmpty then none
  else some (digitsToNat ds, l.drop ds.length)

def expectChar (c : Char) : List Char → Option (List Char)
  | x :: rest => if x = c then some rest else none
  | [] => none

/-- chrono `%Y` when parsing: an optional sign (unlimited digits when signed,
at most 4 otherwise). -/
def readYear (l : List Char) : Option (Int × List Char) :=
  match l with
  | '-' :: rest => (readDigits rest rest.length).map fun p => (-(p.1 : Int), p.2)
  | '+' :: rest => (readDigits rest rest.length).map fun p => ((p.1 : Int), p.2)
  | _ => (readDigits l 4).map fun p => ((p.1 : Int), p.2)

def isLeapYear (y : Int) : Bool :=
  (y % 4 == 0 && y % 100 != 0) || y % 400 == 0

def daysInMonth (y m : Int) : Int :=
  if m = 2 then (if isLeapYear y then 29 else 28)
  else if m = 4 ∨ m = 6 ∨ m = 9 ∨ m = 11 then 30
  else 31

/-- Days from 1970-01-01 to the civil date `y-m-d` (Hinnant's algorithm, the
same calendar chrono uses). -/
def daysFromCivil (y m d : Int) : Int :=
  let yAdj := if m ≤ 2 then y - 1 else y
  let era := Int.fdiv yAdj 400
  let yoe := yAdj - era * 400
  let mp := (m + 9) % 12
  let doy := Int.fdiv (153 * mp + 2) 5 + d - 1
  let doe := yoe * 365 + Int.fdiv yoe 4 - Int.fdiv yoe 100 + doy
  era * 146097 + doe - 719468

/-- `NaiveDateTime::parse_from_str(s, "%m/%d/%Y %H:%M")`: the only template
this pipeline uses (month/day/year hour:minute, 24-hour, no seconds).
chrono skips whitespace before each numeric field, requires the literal
separators, validates the civil date and clock values, and rejects
trailing input. -/
def parseDateTime (s : String) : Option Int := do
  let (mo, r1) ← readDigits (skipWs s.data) 2
  let r2 ← expectChar '/' r1
  let (dy, r3) ← readDigits (skipWs r2) 2
  let r4 ← expectChar '/' r3
  let (yr, r5) ← readYear (skipWs r4)
  let (hr, r6) ← readDigits (skipWs r5) 2
  let r7 ← expectChar ':' r6
  let (mi, r8) ← readDigits (skipWs r7) 2
  if r8 = [] ∧ 1 ≤ mo ∧ mo ≤ 12 ∧ 1 ≤ dy ∧ (dy : Int) ≤ daysInMonth yr (mo : Int) ∧
      hr ≤ 23 ∧ mi ≤ 59 ∧ -262144 ≤ yr ∧ yr ≤ 262143 then
    some ((daysFromCivil yr (mo : Int) (dy : Int) * 86400 +
      (hr : Int) * 3600 + (mi : Int) * 60) * 1000000000)
  else none

/-- `any_value_to_naive_date_time` (job_row.rs:535), specialised to the fixed
format string `"%m/%d/%Y %H:%M"` both call sites pass. -/
def any_value_to_naive_date_time (value : AnyValue) :
    Except AnyValueToNaiveDateTimeParseError Int :=
  match value with
  | .utf8 date_str =>
    match parseDateTime date_str with
    | some d => .ok d
    | none => .error (.ParseError (anyValueDisplay value))
  | _ => .error (.InvalidType (anyValueDisplay value))

/-- The per-cell date extraction in `JobRow::from_dataframe` (job_row.rs:300):
`any_value_to_naive_date_time(..).unwrap_or_default()`, where
`NaiveDateTime::default()` is the epoch, i.e. `0`. -/
def extractDateCell (cell : AnyValue) : Int :=
  match any_value_to_naive_date_time cell with
  | .ok d => d
  | .error _ => 0

/-! ## Modes, column mapping (`file_parsing.rs` lines 16-119) -/

inductive DispoMode where
  | Delivery
  | Pickup
deriving DecidableEq, Repr

/-- `DispoMode::from_str` (job_row.rs:41). -/
def DispoMode.from_str (value : String) : Except ParseFilesError DispoMode :=
  if value = "Delivery" then .ok .Delivery
  else if value = "Pickup" then .ok .Pickup
  else .error (.StringToDispoMode value)

def JOB_NUMBER_COLUMN_NAME : String := "Load #"
def HAWB_COLUMN_NAME : String := "Ref: House Waybill Number"
def QUANTITY_COLUMN_NAME : String := "Actual Quantity"
def SHIPPER_COLUMN_NAME : String := "Shipper"
def SHIPPER_NAME_COLUMN_NAME : String := "Shipper Name"
def SHIPPER_ADDRESS_COLUMN_NAME : String := "Shipper Address"
def SHIPPER_CITY_COLUMN_NAME : String := "Shipper City"
def SHIPPER_STATE_COLUMN_NAME : String := "Shipper State"
def SHIPPER_POSTAL_CODE_COLUMN_NAME : String := "Shipper Postal Code"
def SHIPPER_COUNTRY_COLUMN_NAME : String := "Shipper Country"
def TARGET_DELIVERY_EARLY_COLUMN_NAME : String := "Target Delivery (Early)"
def TARGET_DELIVERY_LATE_COLUMN_NAME : String := "Target Delivery (Late)"
def TARGET_SHIP_EARLY_COLUMN_NAME : String := "Target Ship (Early)"
def TARGET_SHIP_LATE_COLUMN_NAME : String := "Target Ship (Late)"
def CONSIGNEE_COLUMN_NAME : String := "Consignee"
def CONSIGNEE_NAME_COLUMN_NAME : String := "Consignee Name"
def CONSIGNEE_ADDRESS_COLUMN_NAME : String := "Consignee Address"
def CONSIGNEE_CITY_COLUMN_NAME : String := "Consignee City"
def CONSIGNEE_STATE_COLUMN_NAME : String := "Consignee State"
def CONSIGNEE_POSTAL_CODE_COLUMN_NAME : String := "Consignee Postal Code"
def CONSIGNEE_COUNTRY_COLUMN_NAME : String := "Consignee Country"
def EQUIPMENT_CODES_COLUMN_NAME : String := "Equipment Codes"
def TEMPERATURE_RANGE_COLUMN_NAME : String := "Ref: Temperature Range"

structure ColumnMapping where
  job_number : String
  hawb : String
  quantity : String
  equipment_codes : String
  temperature_range : String
  target_early : String
  target_late : String
  info : String
  name : String
  address : String
  city : String
  state : String
  postal_code : String
  country : String
deriving DecidableEq, Repr

/-- `ColumnMapping::new` (file_parsing.rs:69). -/
def ColumnMapping.new (mode : DispoMode) : ColumnMapping where
  job_number := JOB_NUMBER_COLUMN_NAME
  hawb := HAWB_COLUMN_NAME
  quantity := QUANTITY_COLUMN_NAME
  equipment_codes := EQUIPMENT_CODES_COLUMN_NAME
  temperature_range := TEMPERATURE_RANGE_COLUMN_NAME
  target_early :=
    match mode with
    | .Delivery => TARGET_DELIVERY_EARLY_COLUMN_NAME
    | .Pickup => TARGET_SHIP_EARLY_COLUMN_NAME
  target_late :=
    match mode with
    | .Delivery => TARGET_DELIVERY_LATE_COLUMN_NAME
    | .Pickup => TARGET_SHIP_LATE_COLUMN_NAME
  info :=
    match mode with
    | .Delivery => CONSIGNEE_COLUMN_NAME
    | .Pickup => SHIPPER_COLUMN_NAME
  name :=
    match mode with
    | .Delivery => CONSIGNEE_NAME_COLUMN_NAME
    | .Pickup => SHIPPER_NAME_COLUMN_NAME
  address :=
    match mode with
    | .Delivery => CONSIGNEE_ADDRESS_COLUMN_NAME
    | .Pickup => SHIPPER_ADDRESS_COLUMN_NAME
  city :=
    match mode with
    | .Delivery => CONSIGNEE_CITY_COLUMN_NAME
    | .Pickup => SHIPPER_CITY_COLUMN_NAME
  state :=
    match mode with
    | .Delivery => CONSIGNEE_STATE_COLUMN_NAME
    | .Pickup => SHIPPER_STATE_COLUMN_NAME
  postal_code :=
    match mode with
    | .Delivery => CONSIGNEE_POSTAL_CODE_COLUMN_NAME
    | .Pickup => SHIPPER_POSTAL_CODE_COLUMN_NAME
  country :=
    match mode with
    | .Delivery => CONSIGNEE_COUNTRY_COLUMN_NAME
    | .Pickup => SHIPPER_COUNTRY_COLUMN_NAME

/-! ## JobRow and the assembler (`job_row.rs` lines 148-341) -/

structure JobRow where
  mode : DispoMode
  job_number : String
  hawb_number : String
  temperature_ranges : List TemperatureRange
  quantities : Int
  address : String
  postal_code : String
  city : String
  country : String
  equipment : String
  tolerance : Int
  early_date : Int
  late_date : Int
  calculated_date : Int
  contact_name : String
deriving DecidableEq, Repr

/-- `JobRow::new` (job_row.rs:240), Rust argument order. -/
def JobRow.new (mode : DispoMode) (job_number hawb_number : String)
    (temperature_range : List TemperatureRange) (amount : Int)
    (address postal_code city country equipment : String) (tolerance : Int)
    (early_date late_date calculated_date : Int)
    (contact_name : String) : JobRow :=
  { mode := mode
    job_number := job_number
    hawb_number := hawb_number
    temperature_ranges := temperature_range
    quantities := amount
    address := address
    postal_code := postal_code
    city := city
    country := country
    equipment := equipment
    tolerance := tolerance
    early_date := early_date
    late_date := late_date
    calculated_date := calculated_date
    contact_name := contact_name }

/-- The twelve per-column vectors `JobRow::from_dataframe` extracts before
its assembly loop. -/
structure ExtractedColumns where
  job_numbers : List String
  hawb_numbers : List String
  temperature_ranges : List (List TemperatureRange)
  addresses : List String
  quantities : List Int
  postal_codes : List String
  cities : List String
  countries : List String
  equipment : List String
  contact_names : List String
  early_dates : List Int
  late_dates : List Int
deriving DecidableEq, Repr

/-- The extraction phase of `JobRow::from_dataframe` (job_row.rs:287-306), in
the source's order (the first failing extraction aborts the whole call). -/
def extractAll (df : DataFrame) (mode : DispoMode) :
    Except ParseFilesError ExtractedColumns := do
  let column_mapping := ColumnMapping.new mode
  let job_numbers ←
    (extract_column_as_string df column_mapping.job_number).mapError .PolarsError
  let hawb_numbers ←
    (extract_column_as_string df column_mapping.hawb).mapError .PolarsError
  let temperature_ranges ←
    (extract_column_as_temperature_ranges df column_mapping.temperature_range).mapError .PolarsError
  let addresses ←
    (extract_column_as_string df column_mapping.address).mapError .PolarsError
  let quantities ← extract_column_as_i32 df column_mapping.quantity
  let postal_codes ←
    (extract_column_as_string df column_mapping.postal_code).mapError .PolarsError
  let cities ←
    (extract_column_as_string df column_mapping.city).mapError .PolarsError
  let countries ←
    (extract_column_as_string df column_mapping.country).mapError .PolarsError
  let equipment ←
    (extract_column_as_string df column_mapping.equipment_codes).mapError .PolarsError
  let contact_names ←
    (extract_column_as_string df column_mapping.name).mapError .PolarsError
  let early_col ← (df.column column_mapping.target_early).mapError .PolarsError
  let late_col ← (df.column column_mapping.target_late).mapError .PolarsError
  return { job_numbers := job_numbers
           hawb_numbers := hawb_numbers
           temperature_ranges := temperature_ranges
           addresses := addresses
           quantities := quantities
           postal_codes := postal_codes
           cities := cities
           countries := countries
           equipment := equipment
           contact_names := contact_names
           early_dates := early_col.map extractDateCell
           late_dates := late_col.map extractDateCell }

/-- One iteration of the assembly loop (job_row.rs:311-337): index every
vector, with the source's per-field fallbacks (empty string, `[Invalid]`,
`-1`, epoch date). -/
def buildRow (mode : DispoMode) (cols : ExtractedColumns) (index : Nat) : JobRow :=
  let e := (cols.early_dates[index]?).getD 0
  let l := (cols.late_dates[index]?).getD 0
  JobRow.new mode
    ((cols.job_numbers[index]?).getD "")
    ((cols.hawb_numbers[index]?).getD "")
    ((cols.temperature_ranges[index]?).getD [TemperatureRange.Invalid])
    ((cols.quantities[index]?).getD (-1))
    ((cols.addresses[index]?).getD "")
    ((cols.postal_codes[index]?).getD "")
    ((cols.cities[index]?).getD "")
    ((cols.countries[index]?).getD "")
    ((cols.equipment[index]?).getD "")
    (calculate_tolerance e l)
    e l
    (middle_between_dates e l)
    ((cols.contact_names[index]?).getD "")

/-- `JobRow::from_dataframe` (job_row.rs:284): extract all columns, then
assemble one row per index in `0..df.height()`. -/
def JobRow.from_dataframe (df : DataFrame) (mode : DispoMode) :
    Except ParseFilesError (List JobRow) :=
  (extractAll df mode).map fun cols =>
    (List.range df.height).map (buildRow mode cols)

/-- Fallback-free row construction: succeeds only when every extracted
vector really has an entry at `index`, and uses no default values at all.
Comparing `from_dataframe` against it shows the per-index fallbacks are
never exercised. -/
def rowAt (df : DataFrame) (mode : DispoMode) (index : Nat) : Option JobRow := do
  let cols ← (extractAll df mode).toOption
  let j ← cols.job_numbers[index]?
  let hw ← cols.hawb_numbers[index]?
  let t ← cols.temperature_ranges[index]?
  let q ← cols.quantities[index]?
  let ad ← cols.addresses[index]?
  let pc ← cols.postal_codes[index]?
  let ci ← cols.cities[index]?
  let co ← cols.countries[index]?
  let eqp ← cols.equipment[index]?
  let cn ← cols.contact_names[index]?
  let e ← cols.early_dates[index]?
  let l ← cols.late_dates[index]?
  return JobRow.new mode j hw t q ad pc ci co eqp
    (calculate_tolerance e l) e l (middle_between_dates e l) cn

/-! ## Workbook parsing (`file_parsing.rs` lines 184-305) -/

/-- `calamine::DataType` (cell values of the decoded workbook). -/
inductive DataType where
  | string (s : String)
  | float (m : Int) (e : Int)
  | int (i : Int)
  | bool (b : Bool)
  | error (e : String)
  | empty
  | dateTime (m : Int) (e : Int)
  | duration (m : Int) (e : Int)
  | dateTimeIso (s : String)
  | durationIso (s : String)
deriving DecidableEq, Repr

/-- `Display` of a `calamine::DataType` (float payloads rendered from the
dyadic pair; only ever decoded into header-name strings). -/
def dataTypeDisplay : DataType → String
  | .string s => s
  | .float m e => toString m ++ "p" ++ toString e
  | .int i => toString i
  | .bool b => if b then "true" else "false"
  | .error e => e
  | .empty => ""
  | .dateTime m e => toString m ++ "p" ++ toString e
  | .duration m e => toString m ++ "p" ++ toString e
  | .dateTimeIso s => s
  | .durationIso s => s

/-- `data_type_to_any_value` (file_parsing.rs:193). -/
def data_type_to_any_value : DataType → AnyValue
  | .string s => .utf8 (decode_text_smart_string s)
  | .float m e => .float64 m e
  | .int i => .int64 i
  | .bool b => .boolean b
  | .error _ => .null
  | .empty => .null
  | .dateTime m e => .float64 m e
  | .duration m e => .float64 m e
  | .dateTimeIso s => .utf8 (decode_text_smart_string s)
  | .durationIso s => .utf8 (decode_text_smart_string s)

/-- A `calamine::Range`: the sheet's rows of cells. -/
abbrev Range := List (List DataType)

/-- `get_header_names` (file_parsing.rs:218): first row stringified and
null-stripped, `NoHeadersFound` when the sheet has no rows. -/
def get_header_names (range : Range) : Except ParseFilesError (List String) :=
  match range with
  | [] => .error .NoHeadersFound
  | header_row :: _ =>
    .ok (header_row.map fun cell =>
      match cell with
      | .string s => decode_text s
      | _ => decode_text (dataTypeDisplay cell))

/-- `parse_sheet` (file_parsing.rs:244): headers from the first row, one
column per header over the remaining rows (missing cells become `Null`);
`DataFrame::new` rejects duplicate column names (the equal-length check it
also performs holds here by construction). -/
def parse_sheet (range : Range) : Except ParseFilesError DataFrame := do
  let header_names ← get_header_names range
  let data := (List.range header_names.length).map fun col_idx =>
    (range.drop 1).map fun row =>
      match row.get? col_idx with
      | some cell => data_type_to_any_value cell
      | none => AnyValue.null
  if header_names.Nodup then
    return ⟨header_names.zip data⟩
  else
    .error (.PolarsError (.duplicate "duplicate column name"))

/-- An opened `calamine::Xls` workbook: named sheets whose decoding can fail
with a calamine error (the file-open step is I/O and sits outside the
model; its failure is surfaced verbatim by the Rust `?`). -/
structure Xls where
  sheets : List (String × Except CalamineError Range)

/-- `Reader::sheet_names`. -/
def Xls.sheet_names (wb : Xls) : List String := wb.sheets.map (fun s => s.1)

/-- `Reader::worksheet_range`. -/
def Xls.worksheet_range (wb : Xls) (n : String) :
    Option (Except CalamineError Range) :=
  (wb.sheets.find? (fun s => s.1 = n)).map (fun s => s.2)

/-- `parse_xls_file_tms` (file_parsing.rs:288): require exactly one sheet,
surface decode failures as-is, then `parse_sheet`.  (The `as i32` cast of
the sheet count is modelled as the exact integer; no real workbook
approaches the wrap-around threshold.) -/
def parse_xls_file_tms (workbook : Xls) : Except ParseFilesError DataFrame :=
  let sheet_names := workbook.sheet_names
  if sheet_names.length ≠ 1 then
    .error (.InvalidSheetCount (1, (sheet_names.length : Int)))
  else
    match workbook.worksheet_range (sheet_names.headD "") with
    | some (.ok range) => parse_sheet range
    | some (.error e) => .error (.CalamineError e)
    | none => .error (.CalamineError ⟨"Sheet not found"⟩)

/-! ## Concrete inputs used by the witnesses -/

/-- A well-formed one-row Delivery frame with every column the assembler
reads. -/
def wDf : DataFrame := ⟨[
  ("Load #", [.utf8 "J1"]),
  ("Ref: House Waybill Number", [.utf8 "H1"]),
  ("Ref: Temperature Range", [.utf8 "Ambient"]),
  ("Consignee Address", [.utf8 "Street 1"]),
  ("Actual Quantity", [.int64 5]),
  ("Consignee Postal Code", [.utf8 "12345"]),
  ("Consignee City", [.utf8 "Hamburg"]),
  ("Consignee Country", [.utf8 "DE"]),
  ("Equipment Codes", [.utf8 "EQ"]),
  ("Consignee Name", [.utf8 "Acme"]),
  ("Target Delivery (Early)", [.utf8 "01/01/2024 08:00"]),
  ("Target Delivery (Late)", [.utf8 "01/01/2024 09:00"])]⟩

/-- The rows the assembler produces from `wDf`. -/
def wRows : List JobRow := (JobRow.from_dataframe wDf .Delivery).toOption.getD []

def wDummyRow : JobRow :=
  JobRow.new .Delivery "" "" [] 0 "" "" "" "" "" 0 0 0 0 ""

/-- A one-cell boolean quantity column (integer extraction must fail). -/
def wBoolDf : DataFrame := ⟨[("Q", [AnyValue.boolean true])]⟩

/-! ## Supporting lemmas: the date engine -/

theorem middle_comm (a b : Int) :
    middle_between_dates a b = middle_between_dates b a := by
  unfold middle_between_dates
  rcases lt_trichotomy a b with h | h | h
  · rw [if_pos h, if_neg (not_lt.mpr h.le)]
  · simp [h]
  · rw [if_neg (not_lt.mpr h.le), if_pos h]

theorem middle_self (a : Int) : middle_between_dates a a = a := by
  simp [middle_between_dates]

theorem middle_of_le {a b : Int} (h : a ≤ b) :
    middle_between_dates a b = a + Int.fdiv (b - a) 2 := by
  unfold middle_between_dates
  rcases eq_or_lt_of_le h with h1 | h1
  · subst h1; simp
  · rw [if_pos h1]

theorem middle_formula (a b : Int) :
    middle_between_dates a b = min a b + Int.fdiv (max a b - min a b) 2 := by
  rcases le_total a b with h | h
  · rw [middle_of_le h, min_eq_left h, max_eq_right h]
  · rw [middle_comm, middle_of_le h, min_eq_right h, max_eq_left h]

theorem bucket_eq_spec (e m : Int) :
    calculate_tolerance_middle_date e m =
      toleranceBucketSpec |difference_in_minutes e m| := by
  unfold calculate_tolerance_middle_date toleranceBucketSpec
  have h : 0 ≤ |difference_in_minutes e m| := abs_nonneg _
  split_ifs <;> omega

theorem tol_symm_of_even {a b : Int} (h : (2 : Int) ∣ (b - a)) :
    calculate_tolerance a b = calculate_tolerance b a := by
  unfold calculate_tolerance
  rw [middle_comm b a]
  rcases le_total a b with hle | hle
  · obtain ⟨k, hk⟩ := h
    have hm : middle_between_dates a b = a + k := by
      rw [middle_of_le hle, hk, Int.mul_fdiv_cancel_left _ (by norm_num)]
    unfold calculate_tolerance_middle_date
    have h1 : a - (a + k) = -k := by ring
    have h2 : b - (a + k) = k := by omega
    rw [hm]
    unfold difference_in_minutes
    rw [h1, h2, Int.neg_tdiv, abs_neg]
  · have h' : (2 : Int) ∣ (a - b) := by omega
    obtain ⟨k, hk⟩ := h'
    have hm : middle_between_dates a b = b + k := by
      rw [middle_comm, middle_of_le hle, hk, Int.mul_fdiv_cancel_left _ (by norm_num)]
    unfold calculate_tolerance_middle_date
    have h1 : b - (b + k) = -k := by ring
    have h2 : a - (b + k) = k := by omega
    rw [hm]
    unfold difference_in_minutes
    rw [h1, h2, Int.neg_tdiv, abs_neg]

theorem tol_mem_range (a b : Int) :
    calculate_tolerance a b ∈ ([0, 15, 30, 60, 120] : List Int) := by
  unfold calculate_tolerance calculate_tolerance_middle_date
  split_ifs <;> simp

/-! ## Claim C4 -/

/-- C4: `middle_between_dates` is symmetric, idempotent on equal inputs, and
equals `min a b + (max a b - min a b) / 2` with the duration division
truncating the sub-unit remainder toward the earlier date (the duration is
nonnegative, so floor division is exactly that truncation). -/
theorem claim4_middle_between_dates_properties (a b : Int) :
    middle_between_dates a b = middle_between_dates b a ∧
    middle_between_dates a a = a ∧
    middle_between_dates a b = min a b + Int.fdiv (max a b - min a b) 2 :=
  ⟨middle_comm a b, middle_self a, middle_formula a b⟩

/-! ## Claim C2 -/

/-- C2 counterexample: `calculate_tolerance` is not symmetric.  With
`a = 0` and `b = 119999999999` ns (one nanosecond short of two minutes),
the midpoint sits `59999999999` ns after `a` and `60000000000` ns before
`b`; truncated to minutes the edge-to-middle distance is `0` from `a` but
`1` from `b`, so the buckets differ (`0` vs `15`). -/
theorem claim2_tolerance_symmetry_counterexample :
    calculate_tolerance 0 119999999999 ≠ calculate_tolerance 119999999999 0 := by
  decide

/-- C2 amended: `calculate_tolerance` always returns one of
`{0, 15, 30, 60, 120}`, and it is symmetric whenever the two dates differ by
an even number of nanoseconds (in particular on whole seconds or minutes);
symmetry fails in general only for odd-nanosecond gaps, as the
counterexample shows. -/
theorem claim2_tolerance_even_symmetric_and_range (a b : Int) :
    ((2 : Int) ∣ (b - a) → calculate_tolerance a b = calculate_tolerance b a) ∧
    calculate_tolerance a b ∈ ([0, 15, 30, 60, 120] : List Int) :=
  ⟨fun h => tol_symm_of_even h, tol_mem_range a b⟩

/-- C2 witness: the amended theorem applied at the two-minute pair
`(0, 120000000000)`, whose gap is even. -/
theorem claim2_witness :
    (calculate_tolerance 0 120000000000 = calculate_tolerance 120000000000 0) ∧
    calculate_tolerance 0 120000000000 ∈ ([0, 15, 30, 60, 120] : List Int) :=
  ⟨(claim2_tolerance_even_symmetric_and_range 0 120000000000).1 (by decide),
   (claim2_tolerance_even_symmetric_and_range 0 120000000000).2⟩

/-! ## Claim C3 -/

theorem decodeUnits_latin1 : ∀ (l : List Char), (∀ c ∈ l, c.toNat < 256) →
    ((l.flatMap utf16Units).filter (fun u => u ≠ 0)).map (fun u => Char.ofNat (u % 256)) =
      l.filter (fun c => c ≠ Char.ofNat 0)
  | [], _ => rfl
  | c :: l, h => by
    have hc : c.toNat < 256 := h c (List.mem_cons_self c l)
    have hrest := decodeUnits_latin1 l (fun x hx => h x (List.mem_cons_of_mem _ hx))
    have hu : utf16Units c = [c.toNat] := by
      unfold utf16Units; rw [if_pos (by omega)]
    rw [List.flatMap_cons, hu]
    by_cases h0 : c.toNat = 0
    · have hceq : c = Char.ofNat 0 := by rw [← h0, Char.ofNat_toNat]
      have hb1 : decide (c.toNat ≠ 0) = false := by simp [h0]
      have hb2 : decide (c ≠ Char.ofNat 0) = false := by simp [hceq]
      rw [List.singleton_append, List.filter_cons, List.filter_cons, hb1, hb2,
        if_neg Bool.false_ne_true, if_neg Bool.false_ne_true]
      exact hrest
    · have hceq : c ≠ Char.ofNat 0 := by
        intro hEq
        apply h0
        rw [hEq]
        rfl
      have hb1 : decide (c.toNat ≠ 0) = true := by simp [h0]
      have hb2 : decide (c ≠ Char.ofNat 0) = true := by simp [hceq]
      rw [List.singleton_append, List.filter_cons, List.filter_cons, hb1, hb2, if_pos rfl,
        if_pos rfl, List.map_cons, Nat.mod_eq_of_lt hc, Char.ofNat_toNat, hrest]

/-- C3 counterexample: `decode_text` does not preserve every non-null
character.  On the one-character string `"Ā"` (`U+0100`, 16-bit code unit
`256`), the unit passes the null filter but `as u8` truncates it to `0`, so
the output is the null-character string rather than `"Ā"`: the claimed
equation with the drop-nulls-keep-the-rest re-encoding fails. -/
theorem claim3_decode_text_counterexample :
    decode_text (String.mk [Char.ofNat 256]) = String.mk [Char.ofNat 0] ∧
    decode_text (String.mk [Char.ofNat 256]) ≠ decode_text_spec (String.mk [Char.ofNat 256]) := by
  constructor
  · decide
  · decide

/-- C3 amended: restricted to strings whose characters all have code points
below 256 (one 8-bit-clean UTF-16 unit each — which covers the workbook
text this decoder exists for), `decode_text` equals the spec's description:
null characters are dropped and every other character is preserved. -/
theorem claim3_decode_text_latin1 (s : String) (h : ∀ c ∈ s.data, c.toNat < 256) :
    decode_text s = decode_text_spec s := by
  unfold decode_text decode_text_spec
  rw [decodeUnits_latin1 s.data h]

/-- C3 witness: the amended theorem at `"a\x00b"`, whose decode drops the
embedded null and keeps `a` and `b`. -/
theorem claim3_witness :
    decode_text (String.mk [Char.ofNat 97, Char.ofNat 0, Char.ofNat 98]) =
      decode_text_spec (String.mk [Char.ofNat 97, Char.ofNat 0, Char.ofNat 98]) :=
  claim3_decode_text_latin1 _ (by decide)

/-! ## Claim C7 -/

/-- C7: temperature-range extraction follows the split/trim/exact-match
policy and never fails: the four concrete extractions from the spec, the
`[Ambient]` result on every non-text cell, and the per-segment
`Invalid`-fallback mapping for every non-empty input string. -/
theorem claim7_temperature_ranges :
    extract_temperature_ranges "Refrigerated +2C to +8C" = [.Refrigerated] ∧
    extract_temperature_ranges "" = [.Ambient] ∧
    extract_temperature_ranges "bogus" = [.Invalid] ∧
    extract_temperature_ranges "Ambient,Frozen -25C to -15C" = [.Ambient, .Frozen] ∧
    (∀ df name cells rs, DataFrame.column df name = .ok cells →
      extract_column_as_temperature_ranges df name = .ok rs →
      ∀ (i : Nat) (cell : AnyValue), cells[i]? = some cell → (∀ s, cell ≠ .utf8 s) →
        rs[i]? = some [.Ambient]) ∧
    (∀ s, s ≠ "" → extract_temperature_ranges s =
      (splitComma s.data).map fun seg =>
        (TemperatureRange.from_str (String.mk (trimChars seg))).getD .Invalid) := by
  refine ⟨by decide, by decide, by decide, by decide, ?_, ?_⟩
  · intro df name cells rs hcol hext i cell hget hnot
    unfold extract_column_as_temperature_ranges at hext
    rw [hcol] at hext
    simp only [Except.map] at hext
    injection hext with hext
    subst hext
    rw [List.getElem?_map, hget]
    cases cell with
    | utf8 s => exact absurd rfl (hnot s)
    | int64 i => rfl
    | float64 m e => rfl
    | boolean b => rfl
    | null => rfl
  · intro s hs
    unfold extract_temperature_ranges
    rw [if_neg hs]

/-- C7 witness: the non-text-cell conjunct applied to a one-cell integer
column (which extracts to `[Ambient]`), and the mapping conjunct applied to
`"bogus"`. -/
theorem claim7_witness :
    (([[TemperatureRange.Ambient]] : List (List TemperatureRange))[0]? =
      some [TemperatureRange.Ambient]) ∧
    extract_temperature_ranges "bogus" =
      (splitComma "bogus".data).map (fun seg =>
        (TemperatureRange.from_str (String.mk (trimChars seg))).getD .Invalid) :=
  ⟨claim7_temperature_ranges.2.2.2.2.1 ⟨[("T", [.int64 1])]⟩ "T" [.int64 1]
      [[.Ambient]] (by decide) (by decide) 0 (.int64 1) (by decide)
      (fun s h => by cases h),
   claim7_temperature_ranges.2.2.2.2.2 "bogus" (by decide)⟩

/-! ## Supporting lemmas: logarithms, rounding, collect -/

theorem natLog2Aux_spec : ∀ (fuel n : Nat), 1 ≤ n → n ≤ fuel →
    2 ^ natLog2Aux fuel n ≤ n ∧ n < 2 ^ (natLog2Aux fuel n + 1) := by
  intro fuel
  induction fuel with
  | zero => intro n h1 h2; omega
  | succ f ih =>
    intro n h1 h2
    unfold natLog2Aux
    by_cases h : 2 ≤ n
    · rw [if_pos h]
      obtain ⟨ha, hb⟩ := ih (n / 2) (by omega) (by omega)
      constructor
      · rw [pow_succ]
        omega
      · rw [pow_succ]
        rw [pow_succ] at hb
        omega
    · rw [if_neg h]
      simpa using by omega

theorem natLog2_spec (n : Nat) (h : 1 ≤ n) :
    2 ^ natLog2 n ≤ n ∧ n < 2 ^ (natLog2 n + 1) :=
  natLog2Aux_spec n n h le_rfl

theorem floorLog2Frac_one (n : Nat) (h : 1 ≤ n) :
    floorLog2Frac n 1 = (natLog2 n : Int) := by
  unfold floorLog2Frac
  have h1 : natLog2 1 = 0 := by decide
  simp only [h1, Nat.cast_zero, sub_zero, Int.toNat_natCast, mul_one,
    Int.natCast_nonneg, if_true]
  rw [if_pos (natLog2_spec n h).1]

theorem roundHalfEvenInt_one (a : Int) : roundHalfEvenInt a 1 = a := by
  unfold roundHalfEvenInt
  simp [Int.fdiv_one]

theorem roundHalfEvenInt_mul (k d : Int) (hd : 0 < d) :
    roundHalfEvenInt (k * d) d = k := by
  unfold roundHalfEvenInt
  rw [Int.mul_fdiv_cancel _ (ne_of_gt hd)]
  rw [if_pos (by omega)]

theorem f32Sig_one_nonpos (a s : Int) (hs : s ≤ 0) :
    f32Sig a 1 s = a * 2 ^ (-s).toNat := by
  rcases eq_or_lt_of_le hs with h0 | hlt
  · subst h0
    unfold f32Sig
    rw [if_pos le_rfl]
    norm_num [roundHalfEvenInt_one]
  · unfold f32Sig
    rw [if_neg (not_le.mpr hlt), roundHalfEvenInt_one]

theorem f32_int_roundtrip (v : Int) (h : |v| ≤ 2 ^ 24) :
    f32ToI32 (int64ToF32 v) = v := by
  by_cases hv : v = 0
  · subst hv; decide
  · have h16 : |v| ≤ 16777216 := by norm_num at h; exact_mod_cast h
    obtain ⟨h16a, h16b⟩ := abs_le.mp h16
    have hn1 : 1 ≤ v.natAbs := by omega
    have hn24 : v.natAbs ≤ 2 ^ 24 := by norm_num; omega
    obtain ⟨hs1, hs2⟩ := natLog2_spec v.natAbs hn1
    have he24 : natLog2 v.natAbs ≤ 24 :=
      (Nat.pow_le_pow_iff_right (by norm_num)).mp (le_trans hs1 hn24)
    have habs : |v| = (v.natAbs : Int) := Int.abs_eq_natAbs v
    have hs1i : (2 : Int) ^ natLog2 v.natAbs ≤ |v| := by
      rw [habs]
      exact_mod_cast hs1
    have hs2i : |v| < (2 : Int) ^ (natLog2 v.natAbs + 1) := by
      rw [habs]
      exact_mod_cast hs2
    unfold int64ToF32 roundF32
    rw [if_neg hv]
    have hone : (1 : Int).toNat = 1 := rfl
    rw [hone, floorLog2Frac_one v.natAbs hn1]
    have hscale : f32Scale ((natLog2 v.natAbs : Nat) : Int) = (natLog2 v.natAbs : Int) - 23 := by
      unfold f32Scale
      rw [max_eq_left (by omega)]
    rw [hscale]
    by_cases hA : natLog2 v.natAbs ≤ 23
    · have hsle : ((natLog2 v.natAbs : Nat) : Int) - 23 ≤ 0 := by omega
      have hptn : (-(((natLog2 v.natAbs : Nat) : Int) - 23)).toNat = 23 - natLog2 v.natAbs := by
        omega
      rw [f32Sig_one_nonpos _ _ hsle, hptn]
      have hmlt : |v| * 2 ^ (23 - natLog2 v.natAbs) < 2 ^ 24 := by
        calc |v| * 2 ^ (23 - natLog2 v.natAbs) <
            (2 : Int) ^ (natLog2 v.natAbs + 1) * 2 ^ (23 - natLog2 v.natAbs) := by
              apply mul_lt_mul_of_pos_right hs2i (by positivity)
          _ = 2 ^ 24 := by
              rw [← pow_add]
              congr 1
              omega
      have hover : dyadicGe2Pow128 (|v| * 2 ^ (23 - natLog2 v.natAbs))
          (((natLog2 v.natAbs : Nat) : Int) - 23) = false := by
        unfold dyadicGe2Pow128
        rw [if_neg (by omega)]
        simp only [decide_eq_false_iff_not, not_le]
        have ht : ((128 : Int) - (((natLog2 v.natAbs : Nat) : Int) - 23)).toNat =
            151 - natLog2 v.natAbs := by omega
        rw [ht]
        calc |v| * 2 ^ (23 - natLog2 v.natAbs) < 2 ^ 24 := hmlt
          _ ≤ 2 ^ (151 - natLog2 v.natAbs) := by
              apply pow_le_pow_right₀ (by norm_num) (by omega)
      rw [hover]
      simp only [Bool.false_eq_true, if_false]
      have hmant : (if 0 < v then |v| * 2 ^ (23 - natLog2 v.natAbs)
          else -(|v| * 2 ^ (23 - natLog2 v.natAbs))) = v * 2 ^ (23 - natLog2 v.natAbs) := by
        split_ifs with hpos
        · rw [abs_of_pos hpos]
        · have hneg : v < 0 := by omega
          rw [abs_of_neg hneg]
          ring
      rw [hmant]
      simp only [f32ToI32]
      have htv : f32TruncVal (v * 2 ^ (23 - natLog2 v.natAbs))
          (((natLog2 v.natAbs : Nat) : Int) - 23) = v := by
        unfold f32TruncVal
        rcases eq_or_lt_of_le hsle with h0 | hlt
        · rw [if_pos (le_of_eq h0.symm)]
          have h23 : natLog2 v.natAbs = 23 := by omega
          have hz : ((((natLog2 v.natAbs : Nat) : Int) - 23)).toNat = 0 := by omega
          rw [hz, h23]
          norm_num
        · rw [if_neg (not_le.mpr hlt), hptn, Int.mul_tdiv_cancel _ (by positivity)]
      rw [htv]
      rw [if_neg (by omega), if_neg (by omega)]
    · have hB : natLog2 v.natAbs = 24 := by omega
      have hnval : (v.natAbs : Int) = 2 ^ 24 := by
        have : v.natAbs = 2 ^ 24 := le_antisymm hn24 (by rw [← hB]; exact hs1)
        exact_mod_cast this
      have habs24 : |v| = 2 ^ 24 := by rw [habs, hnval]
      rw [hB]
      have hs1' : ((24 : Nat) : Int) - 23 = 1 := by norm_num
      rw [hs1']
      have hsig : f32Sig |v| 1 1 = 2 ^ 23 := by
        unfold f32Sig
        rw [if_pos (by norm_num)]
        have h2 : (1 : Int) * 2 ^ (1 : Int).toNat = 2 := by norm_num
        rw [h2, habs24]
        have h24 : (2 : Int) ^ 24 = 2 ^ 23 * 2 := by norm_num
        rw [h24, roundHalfEvenInt_mul _ _ (by norm_num)]
      rw [hsig]
      have hover : dyadicGe2Pow128 (2 ^ 23) 1 = false := by decide
      rw [hover]
      simp only [Bool.false_eq_true, if_false]
      simp only [f32ToI32]
      have habs' : v = 2 ^ 24 ∨ v = -(2 ^ 24) := by omega
      have htv : f32TruncVal (if 0 < v then 2 ^ 23 else -(2 ^ 23)) 1 = v := by
        unfold f32TruncVal
        rw [if_pos (by norm_num)]
        rcases habs' with hx | hx <;> subst hx <;> norm_num
      rw [htv]
      rw [if_neg (by omega), if_neg (by omega)]

theorem collectExcept_ok_length {f : α → Except ε β} :
    ∀ {l : List α} {ys : List β}, collectExcept f l = .ok ys → ys.length = l.length := by
  intro l
  induction l with
  | nil => intro ys h; unfold collectExcept at h; injection h with h; subst h; rfl
  | cons a as ih =>
    intro ys h
    unfold collectExcept at h
    cases hfa : f a with
    | error e => rw [hfa] at h; exact absurd h (by simp)
    | ok b =>
      rw [hfa] at h
      cases hrec : collectExcept f as with
      | error e => rw [hrec] at h; exact absurd h (by simp)
      | ok bs =>
        rw [hrec] at h
        injection h with h
        subst h
        simp [ih hrec]

theorem collectExcept_ok_get {f : α → Except ε β} :
    ∀ {l : List α} {ys : List β}, collectExcept f l = .ok ys →
      ∀ (i : Nat) (a : α), l[i]? = some a →
        ∃ b, f a = .ok b ∧ ys[i]? = some b := by
  intro l
  induction l with
  | nil => intro ys h i a ha; simp at ha
  | cons x xs ih =>
    intro ys h i a ha
    unfold collectExcept at h
    cases hfa : f x with
    | error e => rw [hfa] at h; exact absurd h (by simp)
    | ok b =>
      rw [hfa] at h
      cases hrec : collectExcept f xs with
      | error e => rw [hrec] at h; exact absurd h (by simp)
      | ok bs =>
        rw [hrec] at h
        injection h with h
        subst h
        cases i with
        | zero =>
          simp at ha
          subst ha
          exact ⟨b, hfa, by simp⟩
        | succ j =>
          simp at ha
          obtain ⟨b2, hb2, hys⟩ := ih hrec j a ha
          exact ⟨b2, hb2, by simpa using hys⟩

theorem collectExcept_error_of_mem {f : α → Except ε β} :
    ∀ {l : List α} {a : α} {e : ε}, a ∈ l → f a = .error e →
      ∃ e2, collectExcept f l = .error e2 := by
  intro l
  induction l with
  | nil => intro a e ha; simp at ha
  | cons x xs ih =>
    intro a e ha hfa
    unfold collectExcept
    rcases List.mem_cons.mp ha with h1 | h1
    · subst h1
      rw [hfa]
      exact ⟨e, rfl⟩
    · cases hfx : f x with
      | error e3 => exact ⟨e3, rfl⟩
      | ok b =>
        obtain ⟨e2, he2⟩ := ih h1 hfa
        rw [he2]
        exact ⟨e2, rfl⟩

/-! ## Claims C10 and C5 -/

/-- C10: integer extraction routes every cell through `f32`
(`any_value_to_numeric::<f32>`) before truncating to `i32`; every `Int64`
cell with `|v| ≤ 2 ^ 24` survives the round trip exactly, while the `Int64`
cell `16777217` (one above `2 ^ 24`) comes back as `16777216`. -/
theorem claim10_i32_via_f32 :
    (∀ cell : AnyValue, cellToI32 cell =
        ((any_value_to_numeric_f32 cell).map f32ToI32).mapError .AnyValueToNumericParse) ∧
    (∀ v : Int, |v| ≤ 2 ^ 24 → cellToI32 (.int64 v) = .ok v) ∧
    cellToI32 (.int64 16777217) = .ok 16777216 := by
  refine ⟨?_, ?_, by decide⟩
  · intro cell
    unfold cellToI32
    cases any_value_to_numeric_f32 cell <;> rfl
  · intro v hv
    have hred : cellToI32 (.int64 v) = .ok (f32ToI32 (int64ToF32 v)) := rfl
    rw [hred, f32_int_roundtrip v hv]

/-- C10 witness: the exactness conjunct applied at `v = 16777216`. -/
theorem claim10_witness : cellToI32 (.int64 16777216) = .ok 16777216 :=
  claim10_i32_via_f32.2.1 16777216 (by decide)

/-- C5: integer column extraction coerces each cell to `f32` first (text via
numeric parse) and then truncates: the text cell `"12.0"` extracts to `12`,
every boolean cell gives a typed `InvalidType` error, one failing cell makes
the whole column extraction return an error (the `Except` result carries no
partial vector), and on success every output entry is the
coerce-then-truncate image of the corresponding cell. -/
theorem claim5_extract_i32_policy :
    cellToI32 (.utf8 "12.0") = .ok 12 ∧
    (∀ b, ∃ msg, cellToI32 (.boolean b) =
      .error (.AnyValueToNumericParse (.InvalidType msg))) ∧
    (∀ df name col cell, DataFrame.column df name = .ok col → cell ∈ col →
      (∃ e, any_value_to_numeric_f32 cell = .error e) →
      ∃ e2, extract_column_as_i32 df name = .error e2) ∧
    (∀ df name col rs, DataFrame.column df name = .ok col →
      extract_column_as_i32 df name = .ok rs →
      ∀ (i : Nat) (cell : AnyValue), col[i]? = some cell →
        ∃ f32v, any_value_to_numeric_f32 cell = .ok f32v ∧
          rs[i]? = some (f32ToI32 f32v)) := by
  refine ⟨by decide, ?_, ?_, ?_⟩
  · intro b
    exact ⟨anyValueDisplay (.boolean b), rfl⟩
  · intro df name col cell hcol hmem ⟨e, he⟩
    unfold extract_column_as_i32
    rw [hcol]
    exact collectExcept_error_of_mem hmem (show cellToI32 cell = .error _ by
      unfold cellToI32; rw [he])
  · intro df name col rs hcol hok i cell hget
    unfold extract_column_as_i32 at hok
    rw [hcol] at hok
    obtain ⟨b, hb, hrs⟩ := collectExcept_ok_get hok i cell hget
    unfold cellToI32 at hb
    cases hnum : any_value_to_numeric_f32 cell with
    | error e => rw [hnum] at hb; exact absurd hb (by simp)
    | ok f32v =>
      rw [hnum] at hb
      injection hb with hb
      subst hb
      exact ⟨f32v, rfl, hrs⟩

/-- C5 witness: the all-or-nothing conjunct at the one-cell boolean column,
and the pointwise conjunct at a one-cell integer column. -/
theorem claim5_witness :
    (∃ e2, extract_column_as_i32 wBoolDf "Q" = .error e2) ∧
    (∃ f32v, any_value_to_numeric_f32 (.int64 5) = .ok f32v ∧
      ([5] : List Int)[0]? = some (f32ToI32 f32v)) :=
  ⟨claim5_extract_i32_policy.2.2.1 wBoolDf "Q" [.boolean true] (.boolean true)
      (by decide) (by simp) ⟨_, rfl⟩,
   claim5_extract_i32_policy.2.2.2 ⟨[("Q", [AnyValue.int64 5])]⟩ "Q" [.int64 5] [5]
      (by decide) (by decide) 0 (.int64 5) (by decide)⟩

/-! ## Supporting lemmas: Except plumbing and the extraction phase -/

theorem mapError_ok {ε ε2 α : Type} {x : Except ε α} {f : ε → ε2} {y : α} :
    x.mapError f = .ok y ↔ x = .ok y := by
  cases x <;> simp [Except.mapError]

theorem mapError_error_shape {ε ε2 α : Type} {x : Except ε α} {f : ε → ε2} {e : ε2}
    (h : x.mapError f = .error e) : ∃ e0, e = f e0 := by
  cases x with
  | error e0 =>
    simp only [Except.mapError] at h
    injection h with h
    exact ⟨e0, h.symm⟩
  | ok a => simp [Except.mapError] at h

theorem bind_ok_shape {ε α β : Type} {x : Except ε α} {f : α → Except ε β} {y : β}
    (h : (x >>= f) = .ok y) : ∃ a, x = .ok a ∧ f a = .ok y := by
  cases x with
  | error e => simp [bind, Except.bind] at h
  | ok a => exact ⟨a, rfl, by simpa [bind, Except.bind] using h⟩

theorem bind_error_shape {ε α β : Type} {x : Except ε α} {f : α → Except ε β} {e : ε}
    (h : (x >>= f) = .error e) : x = .error e ∨ ∃ a, x = .ok a ∧ f a = .error e := by
  cases x with
  | error e0 => left; simpa [bind, Except.bind] using h
  | ok a => right; exact ⟨a, rfl, by simpa [bind, Except.bind] using h⟩

theorem collectExcept_error_shape {α β ε : Type} {f : α → Except ε β} :
    ∀ {l : List α} {e : ε}, collectExcept f l = .error e → ∃ a ∈ l, f a = .error e := by
  intro l
  induction l with
  | nil => intro e h; simp [collectExcept] at h
  | cons x xs ih =>
    intro e h
    unfold collectExcept at h
    cases hfx : f x with
    | error e0 =>
      rw [hfx] at h
      injection h with h
      exact ⟨x, List.mem_cons_self x xs, by rw [hfx, h]⟩
    | ok b =>
      rw [hfx] at h
      cases hrec : collectExcept f xs with
      | error e2 =>
        rw [hrec] at h
        injection h with h
        subst h
        obtain ⟨a, ha, hfa⟩ := ih hrec
        exact ⟨a, List.mem_cons_of_mem _ ha, hfa⟩
      | ok bs => rw [hrec] at h; exact absurd h (by simp)

theorem cellToI32_error_shape {cell : AnyValue} {e : ParseFilesError}
    (h : cellToI32 cell = .error e) :
    ∃ ne, e = .AnyValueToNumericParse ne := by
  unfold cellToI32 at h
  cases hx : any_value_to_numeric_f32 cell with
  | error e0 =>
    rw [hx] at h
    injection h with h
    exact ⟨e0, h.symm⟩
  | ok v => rw [hx] at h; exact absurd h (by simp)

theorem extract_i32_error_shape {df : DataFrame} {name : String} {e : ParseFilesError}
    (h : extract_column_as_i32 df name = .error e) :
    (∃ pe, e = .PolarsError pe) ∨ (∃ ne, e = .AnyValueToNumericParse ne) := by
  unfold extract_column_as_i32 at h
  cases hcol : df.column name with
  | error pe =>
    rw [hcol] at h
    injection h with h
    exact Or.inl ⟨pe, h.symm⟩
  | ok col =>
    rw [hcol] at h
    obtain ⟨a, _, hfa⟩ := collectExcept_error_shape h
    exact Or.inr (cellToI32_error_shape hfa)

theorem extractAll_ok_parts {df : DataFrame} {mode : DispoMode} {cols : ExtractedColumns}
    (h : extractAll df mode = .ok cols) :
    extract_column_as_string df (ColumnMapping.new mode).job_number = .ok cols.job_numbers ∧
    extract_column_as_string df (ColumnMapping.new mode).hawb = .ok cols.hawb_numbers ∧
    extract_column_as_temperature_ranges df (ColumnMapping.new mode).temperature_range =
      .ok cols.temperature_ranges ∧
    extract_column_as_string df (ColumnMapping.new mode).address = .ok cols.addresses ∧
    extract_column_as_i32 df (ColumnMapping.new mode).quantity = .ok cols.quantities ∧
    extract_column_as_string df (ColumnMapping.new mode).postal_code = .ok cols.postal_codes ∧
    extract_column_as_string df (ColumnMapping.new mode).city = .ok cols.cities ∧
    extract_column_as_string df (ColumnMapping.new mode).country = .ok cols.countries ∧
    extract_column_as_string df (ColumnMapping.new mode).equipment_codes = .ok cols.equipment ∧
    extract_column_as_string df (ColumnMapping.new mode).name = .ok cols.contact_names ∧
    (∃ ecol, DataFrame.column df (ColumnMapping.new mode).target_early = .ok ecol ∧
      cols.early_dates = ecol.map extractDateCell) ∧
    (∃ lcol, DataFrame.column df (ColumnMapping.new mode).target_late = .ok lcol ∧
      cols.late_dates = lcol.map extractDateCell) := by
  unfold extractAll at h
  obtain ⟨js, h1, h⟩ := bind_ok_shape h
  obtain ⟨hw, h2, h⟩ := bind_ok_shape h
  obtain ⟨tr, h3, h⟩ := bind_ok_shape h
  obtain ⟨ad, h4, h⟩ := bind_ok_shape h
  obtain ⟨qs, h5, h⟩ := bind_ok_shape h
  obtain ⟨pc, h6, h⟩ := bind_ok_shape h
  obtain ⟨ci, h7, h⟩ := bind_ok_shape h
  obtain ⟨co, h8, h⟩ := bind_ok_shape h
  obtain ⟨eqp, h9, h⟩ := bind_ok_shape h
  obtain ⟨cn, h10, h⟩ := bind_ok_shape h
  obtain ⟨ecol, h11, h⟩ := bind_ok_shape h
  obtain ⟨lcol, h12, h⟩ := bind_ok_shape h
  simp only [pure, Except.pure] at h
  injection h with h
  subst h
  exact ⟨mapError_ok.mp h1, mapError_ok.mp h2, mapError_ok.mp h3, mapError_ok.mp h4,
    h5, mapError_ok.mp h6, mapError_ok.mp h7, mapError_ok.mp h8, mapError_ok.mp h9,
    mapError_ok.mp h10, ⟨ecol, mapError_ok.mp h11, rfl⟩, ⟨lcol, mapError_ok.mp h12, rfl⟩⟩

theorem extractAll_error_shape {df : DataFrame} {mode : DispoMode} {e : ParseFilesError}
    (h : extractAll df mode = .error e) :
    (∃ pe, e = .PolarsError pe) ∨ (∃ ne, e = .AnyValueToNumericParse ne) := by
  unfold extractAll at h
  rcases bind_error_shape h with h1 | ⟨js, _, h⟩
  · exact Or.inl (mapError_error_shape h1)
  rcases bind_error_shape h with h1 | ⟨hw, _, h⟩
  · exact Or.inl (mapError_error_shape h1)
  rcases bind_error_shape h with h1 | ⟨tr, _, h⟩
  · exact Or.inl (mapError_error_shape h1)
  rcases bind_error_shape h with h1 | ⟨ad, _, h⟩
  · exact Or.inl (mapError_error_shape h1)
  rcases bind_error_shape h with h1 | ⟨qs, _, h⟩
  · exact extract_i32_error_shape h1
  rcases bind_error_shape h with h1 | ⟨pc, _, h⟩
  · exact Or.inl (mapError_error_shape h1)
  rcases bind_error_shape h with h1 | ⟨ci, _, h⟩
  · exact Or.inl (mapError_error_shape h1)
  rcases bind_error_shape h with h1 | ⟨co, _, h⟩
  · exact Or.inl (mapError_error_shape h1)
  rcases bind_error_shape h with h1 | ⟨eqp, _, h⟩
  · exact Or.inl (mapError_error_shape h1)
  rcases bind_error_shape h with h1 | ⟨cn, _, h⟩
  · exact Or.inl (mapError_error_shape h1)
  rcases bind_error_shape h with h1 | ⟨ecol, _, h⟩
  · exact Or.inl (mapError_error_shape h1)
  rcases bind_error_shape h with h1 | ⟨lcol, _, h⟩
  · exact Or.inl (mapError_error_shape h1)
  simp [pure, Except.pure] at h

theorem exceptMap_ok {ε α β : Type} {x : Except ε α} {f : α → β} {y : β}
    (h : x.map f = .ok y) : ∃ a, x = .ok a ∧ y = f a := by
  cases x with
  | error e => simp [Except.map] at h
  | ok a =>
    simp only [Except.map] at h
    injection h with h
    exact ⟨a, rfl, h.symm⟩

theorem column_length_of_wf {df : DataFrame} (hwf : df.wellFormed) {name : String}
    {col : List AnyValue} (h : DataFrame.column df name = .ok col) :
    col.length = df.height := by
  unfold DataFrame.column at h
  cases hf : df.cols.find? (fun c => c.1 = name) with
  | none => rw [hf] at h; exact absurd h (by simp)
  | some c =>
    rw [hf] at h
    injection h with h
    subst h
    exact hwf c (List.mem_of_find?_eq_some hf)

/-! ## Claims C1, C6 and C9 -/

/-- C1: every row built by `JobRow::from_dataframe` satisfies the two
invariants: its `calculated_date` is `middle_between_dates` of its own
`early_date` and `late_date`, and its `tolerance` is the spec's bucket table
applied to `d`, the early-to-calculated distance in whole minutes
(`Duration::num_minutes`, truncated, absolute value). -/
theorem claim1_from_dataframe_midpoint_tolerance (df : DataFrame) (mode : DispoMode) (rows : List JobRow) (row : JobRow)
    (hok : JobRow.from_dataframe df mode = .ok rows) (hrow : row ∈ rows) :
    row.calculated_date = middle_between_dates row.early_date row.late_date ∧
    row.tolerance =
      toleranceBucketSpec |difference_in_minutes row.early_date row.calculated_date| := by
  unfold JobRow.from_dataframe at hok
  cases hex : extractAll df mode with
  | error e => rw [hex] at hok; exact absurd hok (by simp [Except.map])
  | ok cols =>
    rw [hex] at hok
    simp only [Except.map] at hok
    injection hok with hok
    subst hok
    obtain ⟨i, hi, hrw⟩ := List.mem_map.mp hrow
    subst hrw
    constructor
    · rfl
    · show calculate_tolerance _ _ = _
      unfold calculate_tolerance
      exact bucket_eq_spec _ _

/-- C6: date extraction never fails a column or the request: a non-text cell
extracts to the epoch datetime, a text cell whose contents do not parse
against the fixed `"%m/%d/%Y %H:%M"` template extracts to the epoch
datetime, and no `AnyValueToNaiveDateTimeParse` error ever escapes
`JobRow::from_dataframe`. -/
theorem claim6_date_extraction_never_fails :
    (∀ cell : AnyValue, (∀ s, cell ≠ .utf8 s) → extractDateCell cell = 0) ∧
    (∀ s, parseDateTime s = none → extractDateCell (.utf8 s) = 0) ∧
    (∀ df mode e, JobRow.from_dataframe df mode = .error e →
      ∀ de, e ≠ .AnyValueToNaiveDateTimeParse de) := by
  refine ⟨?_, ?_, ?_⟩
  · intro cell hcell
    cases cell with
    | utf8 s => exact absurd rfl (hcell s)
    | int64 i => rfl
    | float64 m e => rfl
    | boolean b => rfl
    | null => rfl
  · intro s hs
    simp [extractDateCell, any_value_to_naive_date_time, hs]
  · intro df mode e hok de
    unfold JobRow.from_dataframe at hok
    cases hex : extractAll df mode with
    | ok cols => rw [hex] at hok; exact absurd hok (by simp [Except.map])
    | error e0 =>
      rw [hex] at hok
      simp only [Except.map] at hok
      injection hok with hok
      subst hok
      rcases extractAll_error_shape hex with ⟨pe, rfl⟩ | ⟨ne, rfl⟩ <;> simp

/-- C9: on a well-formed frame every extracted per-column vector (strings,
temperature ranges, integers, dates) has length `df.height()`; consequently
a successful `from_dataframe` returns exactly `df.height()` rows and, at
every index, the row equals the fallback-free construction `rowAt` (which
succeeds), so the per-index defaults are never exercised. -/
theorem claim9_column_lengths_and_no_fallbacks (df : DataFrame) (mode : DispoMode) (rows : List JobRow)
    (hwf : df.wellFormed) (hok : JobRow.from_dataframe df mode = .ok rows) :
    (∀ name xs, extract_column_as_string df name = .ok xs → xs.length = df.height) ∧
    (∀ name xs, extract_column_as_temperature_ranges df name = .ok xs →
      xs.length = df.height) ∧
    (∀ name xs, extract_column_as_i32 df name = .ok xs → xs.length = df.height) ∧
    (∀ name col, DataFrame.column df name = .ok col →
      (col.map extractDateCell).length = df.height) ∧
    rows.length = df.height ∧
    (∀ i : Nat, i < df.height → rows[i]? = rowAt df mode i ∧ (rowAt df mode i).isSome) := by
  have hlenStr : ∀ name xs, extract_column_as_string df name = .ok xs →
      xs.length = df.height := by
    intro name xs hx
    obtain ⟨col, hcol, rfl⟩ := exceptMap_ok hx
    rw [List.length_map]
    exact column_length_of_wf hwf hcol
  have hlenTmp : ∀ name xs, extract_column_as_temperature_ranges df name = .ok xs →
      xs.length = df.height := by
    intro name xs hx
    obtain ⟨col, hcol, rfl⟩ := exceptMap_ok hx
    rw [List.length_map]
    exact column_length_of_wf hwf hcol
  have hlenI32 : ∀ name xs, extract_column_as_i32 df name = .ok xs →
      xs.length = df.height := by
    intro name xs hx
    unfold extract_column_as_i32 at hx
    cases hcol : DataFrame.column df name with
    | error e => rw [hcol] at hx; exact absurd hx (by simp)
    | ok col =>
      rw [hcol] at hx
      rw [collectExcept_ok_length hx]
      exact column_length_of_wf hwf hcol
  have hlenDate : ∀ name col, DataFrame.column df name = .ok col →
      (col.map extractDateCell).length = df.height := by
    intro name col hcol
    rw [List.length_map]
    exact column_length_of_wf hwf hcol
  refine ⟨hlenStr, hlenTmp, hlenI32, hlenDate, ?_⟩
  unfold JobRow.from_dataframe at hok
  cases hex : extractAll df mode with
  | error e => rw [hex] at hok; exact absurd hok (by simp [Except.map])
  | ok cols =>
    rw [hex] at hok
    simp only [Except.map] at hok
    injection hok with hok
    subst hok
    refine ⟨by simp, ?_⟩
    intro i hi
    obtain ⟨p1, p2, p3, p4, p5, p6, p7, p8, p9, p10, ⟨ecol, hecol, hed⟩, ⟨lcol, hlcol, hld⟩⟩ :=
      extractAll_ok_parts hex
    have l1 := hlenStr _ _ p1
    have l2 := hlenStr _ _ p2
    have l3 := hlenTmp _ _ p3
    have l4 := hlenStr _ _ p4
    have l5 := hlenI32 _ _ p5
    have l6 := hlenStr _ _ p6
    have l7 := hlenStr _ _ p7
    have l8 := hlenStr _ _ p8
    have l9 := hlenStr _ _ p9
    have l10 := hlenStr _ _ p10
    have l11 : cols.early_dates.length = df.height := by
      rw [hed]; exact hlenDate _ _ hecol
    have l12 : cols.late_dates.length = df.height := by
      rw [hld]; exact hlenDate _ _ hlcol
    obtain ⟨v1, e1⟩ : ∃ v, cols.job_numbers[i]? = some v :=
      ⟨_, List.getElem?_eq_getElem (by rw [l1]; exact hi)⟩
    obtain ⟨v2, e2⟩ : ∃ v, cols.hawb_numbers[i]? = some v :=
      ⟨_, List.getElem?_eq_getElem (by rw [l2]; exact hi)⟩
    obtain ⟨v3, e3⟩ : ∃ v, cols.temperature_ranges[i]? = some v :=
      ⟨_, List.getElem?_eq_getElem (by rw [l3]; exact hi)⟩
    obtain ⟨v4, e4⟩ : ∃ v, cols.addresses[i]? = some v :=
      ⟨_, List.getElem?_eq_getElem (by rw [l4]; exact hi)⟩
    obtain ⟨v5, e5⟩ : ∃ v, cols.quantities[i]? = some v :=
      ⟨_, List.getElem?_eq_getElem (by rw [l5]; exact hi)⟩
    obtain ⟨v6, e6⟩ : ∃ v, cols.postal_codes[i]? = some v :=
      ⟨_, List.getElem?_eq_getElem (by rw [l6]; exact hi)⟩
    obtain ⟨v7, e7⟩ : ∃ v, cols.cities[i]? = some v :=
      ⟨_, List.getElem?_eq_getElem (by rw [l7]; exact hi)⟩
    obtain ⟨v8, e8⟩ : ∃ v, cols.countries[i]? = some v :=
      ⟨_, List.getElem?_eq_getElem (by rw [l8]; exact hi)⟩
    obtain ⟨v9, e9⟩ : ∃ v, cols.equipment[i]? = some v :=
      ⟨_, List.getElem?_eq_getElem (by rw [l9]; exact hi)⟩
    obtain ⟨v10, e10⟩ : ∃ v, cols.contact_names[i]? = some v :=
      ⟨_, List.getElem?_eq_getElem (by rw [l10]; exact hi)⟩
    obtain ⟨v11, e11⟩ : ∃ v, cols.early_dates[i]? = some v :=
      ⟨_, List.getElem?_eq_getElem (by rw [l11]; exact hi)⟩
    obtain ⟨v12, e12⟩ : ∃ v, cols.late_dates[i]? = some v :=
      ⟨_, List.getElem?_eq_getElem (by rw [l12]; exact hi)⟩
    have hopt : (extractAll df mode).toOption = some cols := by rw [hex]; rfl
    have hrowAt : rowAt df mode i = some (buildRow mode cols i) := by
      unfold rowAt buildRow
      rw [hopt]
      simp only [bind, Option.bind]
      rw [e1, e2, e3, e4, e5, e6, e7, e8, e9, e10, e11, e12]
      simp [List.getD_eq_getElem?_getD, e1, e2, e3, e4, e5, e6, e7, e8, e9, e10, e11, e12]
    constructor
    · rw [hrowAt]
      simp [List.getElem?_map, List.getElem?_range hi]
    · rw [hrowAt]
      rfl

/-- C1 witness: the invariant theorem applied to the first row produced from
the concrete frame `wDf`. -/
theorem claim1_witness :
    (wRows.headD wDummyRow).calculated_date =
      middle_between_dates (wRows.headD wDummyRow).early_date
        (wRows.headD wDummyRow).late_date ∧
    (wRows.headD wDummyRow).tolerance =
      toleranceBucketSpec |difference_in_minutes (wRows.headD wDummyRow).early_date
        (wRows.headD wDummyRow).calculated_date| :=
  claim1_from_dataframe_midpoint_tolerance wDf .Delivery wRows
    (wRows.headD wDummyRow) (by decide) (by decide)

/-- C6 witness: the three conjuncts applied at a `Null` cell, an unparseable
text cell, and the column-missing failure of the empty frame. -/
theorem claim6_witness :
    extractDateCell .null = 0 ∧
    extractDateCell (.utf8 "not a date") = 0 ∧
    (∀ de, ParseFilesError.PolarsError (.notFound "Load #") ≠
      .AnyValueToNaiveDateTimeParse de) :=
  ⟨claim6_date_extraction_never_fails.1 .null (fun s h => by cases h),
   claim6_date_extraction_never_fails.2.1 "not a date" (by decide),
   claim6_date_extraction_never_fails.2.2 ⟨[]⟩ .Delivery _ (by decide)⟩

/-- C9 witness: row count and fallback-free reconstruction at the concrete
frame `wDf`. -/
theorem claim9_witness :
    wRows.length = wDf.height ∧ (rowAt wDf .Delivery 0).isSome :=
  ⟨(claim9_column_lengths_and_no_fallbacks wDf .Delivery wRows (by decide)
      (by decide)).2.2.2.2.1,
   ((claim9_column_lengths_and_no_fallbacks wDf .Delivery wRows (by decide)
      (by decide)).2.2.2.2.2 0 (by decide)).2⟩

/-! ## Claim C8 -/

/-- C8: `parse_xls_file_tms` fails with `InvalidSheetCount(1, N)` for every
workbook whose sheet count `N` is not 1 (a two-sheet workbook gives
`InvalidSheetCount(1, 2)`), `parse_sheet` fails with `NoHeadersFound` on a
zero-row sheet, and an underlying calamine decode failure is surfaced
as-is. -/
theorem claim8_workbook_errors :
    (∀ wb : Xls, wb.sheet_names.length ≠ 1 →
      parse_xls_file_tms wb = .error (.InvalidSheetCount (1, (wb.sheet_names.length : Int)))) ∧
    (∀ n1 n2 r1 r2, parse_xls_file_tms ⟨[(n1, r1), (n2, r2)]⟩ =
      .error (.InvalidSheetCount (1, 2))) ∧
    (∀ range : Range, range = [] → parse_sheet range = .error .NoHeadersFound) ∧
    (∀ n e, parse_xls_file_tms ⟨[(n, .error e)]⟩ = .error (.CalamineError e)) := by
  have h1 : ∀ wb : Xls, wb.sheet_names.length ≠ 1 →
      parse_xls_file_tms wb = .error (.InvalidSheetCount (1, (wb.sheet_names.length : Int))) := by
    intro wb hlen
    unfold parse_xls_file_tms
    rw [if_pos hlen]
  refine ⟨h1, ?_, ?_, ?_⟩
  · intro n1 n2 r1 r2
    have := h1 ⟨[(n1, r1), (n2, r2)]⟩ (by simp [Xls.sheet_names])
    simpa [Xls.sheet_names] using this
  · intro range h
    subst h
    rfl
  · intro n e
    unfold parse_xls_file_tms
    rw [if_neg (by simp [Xls.sheet_names])]
    have hf : (Xls.mk [(n, Except.error e)]).worksheet_range
        ((Xls.mk [(n, Except.error e)]).sheet_names.headD "") = some (.error e) := by
      simp [Xls.worksheet_range, Xls.sheet_names, List.find?_cons_of_pos]
    rw [hf]

/-- C8 witness: the sheet-count conjunct at the zero-sheet workbook and the
headers conjunct at the empty sheet. -/
theorem claim8_witness :
    parse_xls_file_tms ⟨[]⟩ = .error (.InvalidSheetCount (1, 0)) ∧
    parse_sheet [] = .error .NoHeadersFound :=
  ⟨by simpa using claim8_workbook_errors.1 ⟨[]⟩ (by decide),
   claim8_workbook_errors.2.2.1 [] rfl⟩

end Dispo

